import Mathlib

/-!
Verification development for the query-processing core of a distributed SQL
database: the expression rewriter (`planner/core/expression_rewriter.go`) and
the table key/row codec (`tablecodec`).

The Go code is shallowly embedded: SQL values are `Option Int` (with `none`
for SQL NULL), three-valued truth values are `Option Bool`, byte strings are
`List Nat` with entries below 256, and fallible operations return `Except`.
-/

namespace Spec2Proof

/-! ## Three-valued SQL logic

`V3` is the three-valued truth domain: `some true` (TRUE), `some false`
(FALSE), `none` (NULL / UNKNOWN). The operators follow MySQL semantics,
which the expression functions built by `NewFunctionInternal` implement. -/

abbrev V3 := Option Bool

/-- SQL three-valued AND (`expression.ComposeCNFCondition` composes with it). -/
def sqlAnd : V3 → V3 → V3
  | some false, _ => some false
  | _, some false => some false
  | some true, some true => some true
  | _, _ => none

/-- SQL three-valued OR (`expression.ComposeDNFCondition` composes with it). -/
def sqlOr : V3 → V3 → V3
  | some true, _ => some true
  | _, some true => some true
  | some false, some false => some false
  | _, _ => none

/-- SQL three-valued NOT. -/
def sqlNot : V3 → V3
  | some b => some (!b)
  | none => none

/-- The TiDB `if(c, t, e)` builtin: the condition counts as taken only when it
is non-NULL and true; a NULL condition selects the else branch. -/
def sqlIf (c : V3) (t e : V3) : V3 :=
  match c with
  | some true => t
  | _ => e

/-- NULL-propagating equality on SQL integer values. -/
def sqlEqI : Option Int → Option Int → V3
  | some x, some y => some (x = y)
  | _, _ => none

/-- NULL-propagating inequality on SQL integer values. -/
def sqlNeI : Option Int → Option Int → V3
  | some x, some y => some (x ≠ y)
  | _, _ => none

/-- The comparison operators that reach the `default` branch of
`handleCompareSubquery` (`<`, `<=`, `>`, `>=`). -/
inductive CmpOp where
  | lt | le | gt | ge
  deriving DecidableEq, Repr

/-- NULL-propagating evaluation of a comparison operator. -/
def sqlCmp (op : CmpOp) : Option Int → Option Int → V3
  | some x, some y =>
    match op with
    | .lt => some (x < y)
    | .le => some (x ≤ y)
    | .gt => some (y < x)
    | .ge => some (y ≤ x)
  | _, _ => none

/-! ## Aggregates over the subquery column

A subquery result column is a `List (Option Int)`, one entry per row. -/

/-- SQL `MAX`: ignores NULL rows, returns NULL when no non-NULL row exists. -/
def sqlMax (rows : List (Option Int)) : Option Int :=
  (rows.filterMap id).foldl (fun acc x => some (max (acc.getD x) x)) none

/-- SQL `MIN`: ignores NULL rows, returns NULL when no non-NULL row exists. -/
def sqlMin (rows : List (Option Int)) : Option Int :=
  (rows.filterMap id).foldl (fun acc x => some (min (acc.getD x) x)) none

/-- SQL `SUM(rexpr IS NULL)` over the subquery rows: NULL on empty input,
otherwise the number of NULL rows (`isnull` yields 1 / 0 per row). -/
def sumIsNull (rows : List (Option Int)) : Option Int :=
  match rows with
  | [] => none
  | _ => some (rows.countP (· = none))

/-- SQL `COUNT(1)` over the subquery rows: the number of rows, never NULL. -/
def countOne (rows : List (Option Int)) : Int := rows.length

/-! ## `buildQuantifierPlan`

Semantic transliteration of `expressionRewriter.buildQuantifierPlan`
(`expression_rewriter.go`). Its inputs are the already-built comparison
condition `cond0` (`cmp(lexpr, agg)` for the `<, <=, >, >=` cases), the outer
value `lexpr`, the subquery rows (whose column is `rexpr`), and the quantifier
(`all`). We evaluate the scalar condition it attaches to the plan. -/
def buildQuantifierCond (all : Bool) (cond0 : V3) (lexpr : Option Int)
    (rows : List (Option Int)) : V3 :=
  -- colSum = sum(isnull(rexpr)); colCount = count(1)
  let colSum : Option Int := sumIsNull rows
  let colCount : Int := countOne rows
  -- innerHasNull = ne(colSum, 0)
  let innerHasNull : V3 := sqlNeI colSum (some 0)
  -- outerIsNull = isnull(lexpr): never NULL itself
  let outerIsNull : V3 := some (lexpr = none)
  if all then
    -- innerNullChecker = if(innerHasNull, null, 1)
    let innerNullChecker : V3 := sqlIf innerHasNull none (some true)
    -- cond = ComposeCNF(cond, innerNullChecker)
    let cond1 : V3 := sqlAnd cond0 innerNullChecker
    -- emptyChecker = eq(colCount, 0)
    let emptyChecker : V3 := sqlEqI (some colCount) (some 0)
    -- outerNullChecker = if(outerIsNull, null, 0)
    let outerNullChecker : V3 := sqlIf outerIsNull none (some false)
    -- cond = ComposeDNF(cond, emptyChecker, outerNullChecker)
    sqlOr (sqlOr cond1 emptyChecker) outerNullChecker
  else
    -- innerNullChecker = if(innerHasNull, null, 0)
    let innerNullChecker : V3 := sqlIf innerHasNull none (some false)
    -- cond = ComposeDNF(cond, innerNullChecker)
    let cond1 : V3 := sqlOr cond0 innerNullChecker
    -- emptyChecker = ne(colCount, 0)
    let emptyChecker : V3 := sqlNeI (some colCount) (some 0)
    -- outerNullChecker = if(outerIsNull, null, 1)
    let outerNullChecker : V3 := sqlIf outerIsNull none (some true)
    -- cond = ComposeCNF(cond, emptyChecker, outerNullChecker)
    sqlAnd (sqlAnd cond1 emptyChecker) outerNullChecker

/-- The `useMin` selector of `handleCompareSubquery`: "When < all or > any,
the agg function should use min." -/
def useMin (op : CmpOp) (all : Bool) : Bool :=
  ((op = .lt || op = .le) && all) || ((op = .gt || op = .ge) && !all)

/-- The aggregate kinds `handleOtherComparableSubq` can create. -/
inductive AggKind where
  | aggMin | aggMax
  deriving DecidableEq, Repr

/-- Which aggregate `handleOtherComparableSubq` builds, per `useMin`. -/
def aggChosen (op : CmpOp) (all : Bool) : AggKind :=
  if useMin op all then .aggMin else .aggMax

/-- Evaluate the chosen aggregate over the subquery rows. -/
def aggValue : AggKind → List (Option Int) → Option Int
  | .aggMin, rows => sqlMin rows
  | .aggMax, rows => sqlMax rows

/-- Semantic transliteration of the `default` branch of
`handleCompareSubquery` followed by `handleOtherComparableSubq`: the subquery
column is aggregated by min/max (per `useMin`), `lexpr` is compared against
that aggregate column with the original operator, and `buildQuantifierPlan`
attaches the NULL / empty checkers. -/
def quantifiedCompareResult (op : CmpOp) (all : Bool) (lexpr : Option Int)
    (rows : List (Option Int)) : V3 :=
  let colMaxOrMin : Option Int := aggValue (aggChosen op all) rows
  let cond : V3 := sqlCmp op lexpr colMaxOrMin
  buildQuantifierCond all cond lexpr rows

/-! ## Spec-side formulas for the quantified comparison (claim C1)

These definitions follow the SPEC's words, to be compared with
`quantifiedCompareResult`, which is the embedding of the source. -/

/-- The C1 claim's formula, literally as stated: for `ALL`,
`cmp(a, agg) AND NOT(sum(subq_is_null) != 0 ? NULL : TRUE)`; for `ANY`,
`cmp(a, agg) OR (sum(subq_is_null) != 0 ? NULL : FALSE)`; forced to
TRUE (`ALL`) / FALSE (`ANY`) on an empty subquery; forced to NULL when the
outer value is NULL and the subquery is non-empty. -/
def specQuantifiedLiteral (op : CmpOp) (all : Bool) (a : Option Int)
    (rows : List (Option Int)) : V3 :=
  if rows = [] then (if all then some true else some false)
  else if a = none then none
  else
    let agg : Option Int := aggValue (aggChosen op all) rows
    let cmp : V3 := sqlCmp op a agg
    let ternary : V3 :=
      if all then sqlIf (sqlNeI (sumIsNull rows) (some 0)) none (some true)
      else sqlIf (sqlNeI (sumIsNull rows) (some 0)) none (some false)
    if all then sqlAnd cmp (sqlNot ternary) else sqlOr cmp ternary

/-- The amended C1 formula: identical to the claim except that the spurious
`NOT` in the `ALL` case is dropped, i.e. for `ALL` the condition is
`cmp(a, agg) AND (sum(subq_is_null) != 0 ? NULL : TRUE)`. -/
def specQuantifiedAmended (op : CmpOp) (all : Bool) (a : Option Int)
    (rows : List (Option Int)) : V3 :=
  if rows = [] then (if all then some true else some false)
  else if a = none then none
  else
    let agg : Option Int := aggValue (aggChosen op all) rows
    let cmp : V3 := sqlCmp op a agg
    if all then sqlAnd cmp (sqlIf (sqlNeI (sumIsNull rows) (some 0)) none (some true))
    else sqlOr cmp (sqlIf (sqlNeI (sumIsNull rows) (some 0)) none (some false))

/-! ### Helper lemmas about the three-valued operators -/

theorem sqlAnd_some_true (x : V3) : sqlAnd x (some true) = x := by
  rcases x with _ | b
  · rfl
  · cases b <;> rfl

theorem sqlOr_some_false (x : V3) : sqlOr x (some false) = x := by
  rcases x with _ | b
  · rfl
  · cases b <;> rfl

theorem sqlAnd_some_false (x : V3) : sqlAnd x (some false) = some false := by
  rcases x with _ | b
  · rfl
  · cases b <;> rfl

theorem sqlAnd_none_of_ne_false (x : V3) (h : x ≠ some false) :
    sqlAnd (none : V3) x = none := by
  rcases x with _ | b
  · rfl
  · cases b
    · exact absurd rfl h
    · rfl

theorem sqlOr_none_of_ne_true (x : V3) (h : x ≠ some true) :
    sqlOr (none : V3) x = none := by
  rcases x with _ | b
  · rfl
  · cases b
    · rfl
    · exact absurd rfl h

/-- The condition built by `buildQuantifierPlan` for an empty subquery is
forced: TRUE for `ALL`, FALSE for `ANY`, whatever `cond0` and `lexpr` are. -/
theorem buildQuantifierCond_empty (all : Bool) (cond0 : V3) (lexpr : Option Int) :
    buildQuantifierCond all cond0 lexpr [] =
      (if all then some true else some false) := by
  cases all <;>
    rcases cond0 with _ | b <;>
    rcases lexpr with _ | v <;>
    simp [buildQuantifierCond, sumIsNull, countOne, sqlNeI, sqlEqI, sqlIf,
      sqlAnd, sqlOr] <;>
    cases b <;> rfl

theorem sqlIf_some_true (t e : V3) : sqlIf (some true) t e = t := rfl

theorem sqlIf_some_false (t e : V3) : sqlIf (some false) t e = e := rfl

theorem sqlAnd_none_sqlIf_true (c : V3) :
    sqlAnd none (sqlIf c none (some true)) = none := by
  rcases c with _ | b
  · rfl
  · cases b <;> rfl

theorem sqlOr_none_sqlIf_false (c : V3) :
    sqlOr none (sqlIf c none (some false)) = none := by
  rcases c with _ | b
  · rfl
  · cases b <;> rfl

/-- On a non-empty subquery with a non-NULL outer value, the checkers of
`buildQuantifierPlan` reduce to the plain inner-NULL adjustment. -/
theorem buildQuantifierCond_cons_some (all : Bool) (cond0 : V3) (v : Int)
    (r : Option Int) (rs : List (Option Int)) :
    buildQuantifierCond all cond0 (some v) (r :: rs) =
      (if all then
        sqlAnd cond0 (sqlIf (sqlNeI (sumIsNull (r :: rs)) (some 0)) none (some true))
       else
        sqlOr cond0 (sqlIf (sqlNeI (sumIsNull (r :: rs)) (some 0)) none (some false))) := by
  have hlenEq : sqlEqI (some (countOne (r :: rs))) (some 0) = some false := by
    have h : countOne (r :: rs) ≠ 0 := by
      simp only [countOne, List.length_cons]
      omega
    simp [sqlEqI, h]
  have hlenNe : sqlNeI (some (countOne (r :: rs))) (some 0) = some true := by
    have h : countOne (r :: rs) ≠ 0 := by
      simp only [countOne, List.length_cons]
      omega
    simp [sqlNeI, h]
  have houter : (some (v) : Option Int) ≠ none := by simp
  cases all
  · show sqlAnd (sqlAnd _ (sqlNeI (some (countOne (r :: rs))) (some 0)))
        (sqlIf (some (decide ((some v : Option Int) = none))) none (some true)) = _
    simp only [houter, decide_eq_false, hlenNe, sqlIf_some_false, sqlAnd_some_true,
      if_neg Bool.false_ne_true]
    rw [show (decide False) = false from rfl, sqlIf_some_false, sqlAnd_some_true]
  · show sqlOr (sqlOr _ (sqlEqI (some (countOne (r :: rs))) (some 0)))
        (sqlIf (some (decide ((some v : Option Int) = none))) none (some false)) = _
    simp only [houter, decide_eq_false, hlenEq, sqlIf_some_false, sqlOr_some_false,
      if_pos rfl]
    rw [show (decide False) = false from rfl, sqlIf_some_false, sqlOr_some_false]
    simp

/-- On a non-empty subquery with a NULL outer value and a NULL comparison
result, `buildQuantifierPlan`'s condition is NULL. -/
theorem buildQuantifierCond_cons_noneOuter (all : Bool) (r : Option Int)
    (rs : List (Option Int)) :
    buildQuantifierCond all none none (r :: rs) = none := by
  have hlenEq : sqlEqI (some (countOne (r :: rs))) (some 0) = some false := by
    have h : countOne (r :: rs) ≠ 0 := by
      simp only [countOne, List.length_cons]
      omega
    simp [sqlEqI, h]
  have hlenNe : sqlNeI (some (countOne (r :: rs))) (some 0) = some true := by
    have h : countOne (r :: rs) ≠ 0 := by
      simp only [countOne, List.length_cons]
      omega
    simp [sqlNeI, h]
  cases all
  · show sqlAnd (sqlAnd (sqlOr none (sqlIf _ none (some false)))
        (sqlNeI (some (countOne (r :: rs))) (some 0)))
        (sqlIf (some (decide ((none : Option Int) = none))) none (some true)) = none
    rw [sqlOr_none_sqlIf_false, hlenNe, sqlAnd_some_true]
    simp [sqlIf_some_true, sqlAnd]
  · show sqlOr (sqlOr (sqlAnd none (sqlIf _ none (some true)))
        (sqlEqI (some (countOne (r :: rs))) (some 0)))
        (sqlIf (some (decide ((none : Option Int) = none))) none (some false)) = none
    rw [sqlAnd_none_sqlIf_true, hlenEq, sqlOr_some_false]
    simp [sqlIf_some_true, sqlOr]

/-- C1 (amended): for every quantified comparison with `op ∈ {<, <=, >, >=}`,
the condition built by the rewriter agrees with the spec formula once the
spurious `NOT` is removed from the `ALL` case: for `ALL` it is
`cmp(a, agg) AND (sum(subq_is_null) != 0 ? NULL : TRUE)`, for `ANY` it is
`cmp(a, agg) OR (sum(subq_is_null) != 0 ? NULL : FALSE)`, forced to TRUE
(`ALL`) / FALSE (`ANY`) on an empty subquery and to NULL when the outer value
is NULL and the subquery is non-empty; in particular `5 > ALL {}` is TRUE and
`5 > ANY {}` is FALSE. -/
theorem c1_quantified_amended :
    (∀ (op : CmpOp) (all : Bool) (a : Option Int) (rows : List (Option Int)),
      quantifiedCompareResult op all a rows = specQuantifiedAmended op all a rows)
    ∧ quantifiedCompareResult .gt true (some 5) [] = some true
    ∧ quantifiedCompareResult .gt false (some 5) [] = some false := by
  refine ⟨?_, by decide, by decide⟩
  intro op all a rows
  rcases rows with _ | ⟨r, rs⟩
  · simp [quantifiedCompareResult, specQuantifiedAmended, buildQuantifierCond_empty]
  · rcases a with _ | v
    · have hcmp : sqlCmp op none (aggValue (aggChosen op all) (r :: rs)) = none := by
        rfl
      simp only [quantifiedCompareResult, specQuantifiedAmended, hcmp,
        buildQuantifierCond_cons_noneOuter]
      simp
    · simp only [quantifiedCompareResult, specQuantifiedAmended,
        buildQuantifierCond_cons_some]
      simp

/-- C1 (counterexample): the claim's literal formula for `ALL` — with the
`NOT` around the inner-NULL ternary — disagrees with the rewriter's condition
on `5 > ALL {3}`: the claim's formula yields FALSE while the code yields TRUE
(the SQL answer). -/
theorem c1_literal_counterexample :
    specQuantifiedLiteral .gt true (some 5) [some 3] = some false ∧
    quantifiedCompareResult .gt true (some 5) [some 3] = some true := by
  decide

/-- C2: for every quantified comparison with `op ∈ {<, <=, >, >=}` the
rewriter aggregates the subquery column once and compares `a` against that
aggregate with the original operator; the aggregate is MIN exactly when
(`op ∈ {<, <=}` and `ALL`) or (`op ∈ {>, >=}` and `ANY`), and MAX in the four
other operator/quantifier combinations. -/
theorem c2_quantifier_aggregate :
    (∀ (op : CmpOp) (all : Bool),
      aggChosen op all = .aggMin ↔
        (((op = .lt ∨ op = .le) ∧ all = true) ∨
          ((op = .gt ∨ op = .ge) ∧ all = false)))
    ∧ (∀ (op : CmpOp) (all : Bool) (a : Option Int) (rows : List (Option Int)),
        quantifiedCompareResult op all a rows =
          buildQuantifierCond all (sqlCmp op a (aggValue (aggChosen op all) rows))
            a rows) := by
  constructor
  · intro op all
    cases op <;> cases all <;> decide
  · intro op all a rows
    rfl

/-! ## `handleNEAny` (claim C3) -/

/-- SQL `FIRST_ROW` aggregate over the subquery rows: NULL on empty input,
otherwise the first row's value (which may itself be NULL). -/
def firstRowAgg (rows : List (Option Int)) : Option Int :=
  match rows with
  | [] => none
  | r :: _ => r

/-- SQL `COUNT(DISTINCT rexpr)`: the number of distinct non-NULL values,
never NULL. -/
def countDistinct (rows : List (Option Int)) : Int :=
  ((rows.filterMap id).dedup).length

/-- Semantic transliteration of `expressionRewriter.handleNEAny`'s condition
before `buildQuantifierPlan` attaches the generic ANY checkers:
`ComposeDNF(GT(count(distinct rexpr), 1), NE(lexpr, first_row(rexpr)))`. -/
def neAnyCond (lexpr : Option Int) (rows : List (Option Int)) : V3 :=
  let gtFunc : V3 := sqlCmp .gt (some (countDistinct rows)) (some 1)
  let neCond : V3 := sqlNeI lexpr (firstRowAgg rows)
  sqlOr gtFunc neCond

/-- C3: the `a != ANY (subq)` condition built by `handleNEAny` from the
`first_row` and `count(distinct)` aggregates is TRUE exactly when the first
fetched value exists and differs from a non-NULL `a`, or more than one
distinct value exists in the subquery. -/
theorem c3_ne_any_condition :
    ∀ (a : Option Int) (rows : List (Option Int)),
      neAnyCond a rows = some true ↔
        (1 < countDistinct rows ∨
          ∃ x y, a = some x ∧ firstRowAgg rows = some y ∧ x ≠ y) := by
  intro a rows
  show sqlOr (sqlCmp .gt (some (countDistinct rows)) (some 1))
      (sqlNeI a (firstRowAgg rows)) = some true ↔ _
  by_cases hcnt : 1 < countDistinct rows
  · simp only [sqlCmp, hcnt, decide_eq_true, sqlOr]
    simp [hcnt]
  · simp only [sqlCmp, hcnt, decide_eq_false, sqlOr]
    rcases a with _ | x <;> rcases hfr : firstRowAgg rows with _ | y <;>
      simp [sqlNeI, sqlOr, hcnt, hfr]
    by_cases hxy : x = y <;> simp [hxy]

/-! ## `handleInSubquery` (claim C4) -/

/-- The level a correlated column of the subquery plan resolves against:
the current level's plan schema (`er.p.Schema()`) or an enclosing outer
level. -/
inductive CorLevel where
  | current | outer
  deriving DecidableEq, Repr

/-- Modelled from the spec: `extractCorColumnsBySchema` (defined outside the
excerpt) returns the subquery plan's correlated columns that resolve against
the current level's plan schema; correlated columns of enclosing levels are
not returned. -/
def extractCorColumnsBySchema (corCols : List CorLevel) : List CorLevel :=
  corCols.filter (fun c => c = .current)

/-- The plan fragment `handleInSubquery` builds for `a [NOT] IN (subq)`:
an inner join against the `DISTINCT`-deduplicated subquery, a semi-join, or
an anti-semi-join (the latter two carrying the equality condition(s) built by
`constructBinaryOpFunction` as join predicates, via `buildSemiApply`). -/
inductive InSubqRewrite where
  | innerJoinDistinct | semiJoin | antiSemiJoin
  deriving DecidableEq, Repr

/-- Transliteration of the join-vs-apply decision of
`expressionRewriter.handleInSubquery`: the inner-join rewrite fires when the
session flag `AllowInSubqToJoinAndAgg` is set, the pattern is not negated,
no scalar value is needed, and no correlated column from the current level
plan exists; otherwise `buildSemiApply` produces a semi-join, an anti
variant when negated (modelled from the spec: `buildSemiApply` is defined
outside the excerpt). -/
def handleInSubqueryDecision (allowInSubqToJoinAndAgg notIn asScalar : Bool)
    (corCols : List CorLevel) : InSubqRewrite :=
  if allowInSubqToJoinAndAgg && !notIn && !asScalar
      && ((extractCorColumnsBySchema corCols).length == 0) then
    .innerJoinDistinct
  else if notIn then .antiSemiJoin
  else .semiJoin

/-- C4: the `IN (subquery)` rewrite becomes an inner join against the
deduplicated subquery exactly when the dialect flag permits, the pattern is
non-negated and in non-scalar context, and every correlated column of the
subquery resolves to an enclosing outer level (current-level correlation
blocks it, outer-level correlation is tolerated); in every other case it
becomes a semi-join, or an anti-semi-join for `NOT IN`. -/
theorem c4_in_subquery_decision :
    (∀ (allow notIn asScalar : Bool) (corCols : List CorLevel),
      handleInSubqueryDecision allow notIn asScalar corCols =
        if allow && !notIn && !asScalar && corCols.all (fun c => c = .outer) then
          .innerJoinDistinct
        else if notIn then .antiSemiJoin
        else .semiJoin)
    ∧ (∀ (allow notIn asScalar : Bool) (corCols : List CorLevel),
        handleInSubqueryDecision allow notIn asScalar (.outer :: corCols) =
          handleInSubqueryDecision allow notIn asScalar corCols) := by
  have key : ∀ corCols : List CorLevel,
      ((extractCorColumnsBySchema corCols).length == 0) =
        corCols.all (fun c => c = .outer) := by
    intro corCols
    induction corCols with
    | nil => rfl
    | cons c cs ih =>
      cases c <;> simp [extractCorColumnsBySchema, List.filter, List.all_cons] at ih ⊢ <;>
        simp [← ih]
  constructor
  · intro allow notIn asScalar corCols
    simp only [handleInSubqueryDecision, key]
  · intro allow notIn asScalar corCols
    simp only [handleInSubqueryDecision, key, List.all_cons]
    simp

/-! ## Scalar expression trees and `constructBinaryOpFunction` (claim C5)

A syntactic embedding of the expressions the rewriter builds. `leaf`
stands for an abstract scalar operand (column or constant); `row` is the
`RowFunc` scalar function. -/

/-- The binary comparison operators `constructBinaryOpFunction` accepts. -/
inductive SqlOp where
  | eq | ne | nulleq | lt | le | gt | ge
  deriving DecidableEq, Repr

inductive Expr where
  | leaf (id : Nat)
  | nullLit
  | row (args : List Expr)
  | binOp (op : SqlOp) (l r : Expr)
  | isnullE (e : Expr)
  | ifE (c t e : Expr)
  | andE (l r : Expr)
  | orE (l r : Expr)

/-- The errors of the rewriter that the claims mention. -/
inductive RewriteErr where
  | operandColumns (expected : Nat)
  | contextLenInvalid (len : Nat)
  | incorrectParameterCount
  deriving DecidableEq, Repr

/-- `expression.GetRowLen`: the arity of a `RowFunc`, 1 for anything else
(modelled from the spec's row-valued expression description). -/
def getRowLen : Expr → Nat
  | .row args => args.length
  | _ => 1

/-- `expression.GetFuncArg`: the i-th argument of a row function, the
expression itself otherwise (modelled from the spec; only called on rows). -/
def getFuncArg (e : Expr) (i : Nat) : Expr :=
  match e with
  | .row args => args.getD i .nullLit
  | _ => e

/-- Modelled from the spec: `expression.PopRowFirstArg` drops the first
element of a row function, returning the sole remaining element unwrapped
when exactly one is left (so the ordering cascade of
`constructBinaryOpFunction` ends in a plain element comparison). A width-0
row cannot reach it (the parser builds rows of at least two elements). -/
def popRowFirstArg : Expr → Expr
  | .row [] => .nullLit
  | .row [_, x] => x
  | .row (_ :: rest) => .row rest
  | e => e

/-- Modelled from the spec: `expression.ComposeCNFCondition` builds the
conjunction of the given conditions with `LogicAnd`. -/
def composeCNF : List Expr → Expr
  | [] => .nullLit
  | c :: cs => cs.foldl Expr.andE c

/-- Modelled from the spec: `expression.ComposeDNFCondition` builds the
disjunction of the given conditions with `LogicOr`. -/
def composeDNF : List Expr → Expr
  | [] => .nullLit
  | c :: cs => cs.foldl Expr.orE c

theorem expr_one_le_sizeOf (e : Expr) : 1 ≤ sizeOf e := by
  cases e <;> simp_arith

theorem sizeOf_popRowFirstArg_lt (e : Expr) (h : getRowLen e ≠ 1) :
    sizeOf (popRowFirstArg e) < sizeOf e := by
  match e with
  | .leaf _ | .nullLit | .binOp _ _ _ | .isnullE _ | .ifE _ _ _ | .andE _ _ | .orE _ _ =>
    exact absurd rfl h
  | .row [] => simp [popRowFirstArg]
  | .row [a] => exact absurd rfl h
  | .row [a, b] =>
    simp only [popRowFirstArg]
    have := expr_one_le_sizeOf a
    simp_arith
  | .row (a :: b :: c :: rest) =>
    simp only [popRowFirstArg]
    have := expr_one_le_sizeOf a
    simp_arith

mutual

/-- Transliteration of `expressionRewriter.constructBinaryOpFunction`:
scalar operands are compared directly; equal-width rows are decomposed
per-element for `=`, `!=`, `<=>` (composed by CNF for `=`/`<=>`, DNF for
`!=`) and into the `IF`-cascade for the ordering operators; rows of unequal
width fail with the operand-columns error. -/
def constructBinaryOpFunction (l r : Expr) (op : SqlOp) : Except RewriteErr Expr :=
  let lLen := getRowLen l
  let rLen := getRowLen r
  if h1 : lLen = 1 ∧ rLen = 1 then .ok (.binOp op l r)
  else if h2 : rLen ≠ lLen then .error (.operandColumns lLen)
  else
    have hnel : getRowLen l ≠ 1 := fun hc => h1 ⟨hc, by omega⟩
    have hner : getRowLen r ≠ 1 := fun hc => hnel (by omega)
    match op with
    | .eq | .ne | .nulleq =>
      match l, r with
      | .row largs, .row rargs =>
        match constructBOFList largs rargs op with
        | .error e => .error e
        | .ok funcs =>
          if op = .ne then .ok (composeDNF funcs) else .ok (composeCNF funcs)
      -- unreachable: both operands have row length different from 1
      | _, _ => .ok (.binOp op l r)
    | _ =>
      let larg0 := getFuncArg l 0
      let rarg0 := getFuncArg r 0
      let expr1 := Expr.binOp .ne larg0 rarg0
      let expr2 := Expr.binOp op larg0 rarg0
      let expr3 := Expr.isnullE expr1
      match constructBinaryOpFunction (popRowFirstArg l) (popRowFirstArg r) op with
      | .error e => .error e
      | .ok expr4 =>
        let expr5 := Expr.ifE expr3 .nullLit expr4
        .ok (.ifE expr1 expr2 expr5)
termination_by sizeOf l + sizeOf r
decreasing_by
  all_goals simp_wf
  all_goals first
    | simp_arith
    | exact Nat.add_lt_add (sizeOf_popRowFirstArg_lt _ hnel)
        (sizeOf_popRowFirstArg_lt _ hner)

/-- The per-element loop of `constructBinaryOpFunction`'s `=`/`!=`/`<=>`
branch: `funcs[i] = constructBinaryOpFunction(l[i], r[i], op)`. -/
def constructBOFList (ls rs : List Expr) (op : SqlOp) : Except RewriteErr (List Expr) :=
  match ls, rs with
  | [], _ => .ok []
  | _ :: _, [] => .ok []
  | a :: as, b :: bs =>
    match constructBinaryOpFunction a b op with
    | .error e => .error e
    | .ok f =>
      match constructBOFList as bs op with
      | .error e => .error e
      | .ok fs => .ok (f :: fs)
termination_by sizeOf ls + sizeOf rs
decreasing_by
  · simp_wf
    simp_arith
  · simp_wf
    have := expr_one_le_sizeOf a
    have := expr_one_le_sizeOf b
    omega

end

/-! ### Spec-side shapes for claim C5 -/

/-- The ordering-operator cascade as the spec describes it:
`IF(a0 != b0, a0 op b0, IF(isnull(a0 != b0), NULL, <recurse on rest>))`,
ending in a plain element comparison. -/
def specCascade : List Expr → List Expr → SqlOp → Expr
  | [a], [b], op => .binOp op a b
  | a :: as, b :: bs, op =>
    .ifE (.binOp .ne a b) (.binOp op a b)
      (.ifE (.isnullE (.binOp .ne a b)) .nullLit (specCascade as bs op))
  | _, _, _ => .nullLit

/-! ### Evaluation lemmas for `constructBinaryOpFunction` -/

theorem cbof_scalar (a b : Expr) (ha : getRowLen a = 1) (hb : getRowLen b = 1)
    (op : SqlOp) : constructBinaryOpFunction a b op = .ok (.binOp op a b) := by
  unfold constructBinaryOpFunction
  simp [ha, hb]

theorem cbofList_scalar (op : SqlOp) :
    ∀ (as bs : List Expr), (∀ e ∈ as, getRowLen e = 1) →
      (∀ e ∈ bs, getRowLen e = 1) →
      constructBOFList as bs op = .ok (List.zipWith (Expr.binOp op) as bs) := by
  intro as
  induction as with
  | nil =>
    intro bs _ _
    unfold constructBOFList
    rfl
  | cons a as ih =>
    intro bs ha hb
    rcases bs with _ | ⟨b, bs⟩
    · unfold constructBOFList
      rfl
    · unfold constructBOFList
      rw [cbof_scalar a b (ha a (by simp)) (hb b (by simp)) op]
      rw [ih bs (fun e he => ha e (by simp [he])) (fun e he => hb e (by simp [he]))]
      rfl

theorem cbof_row_eqlike (op : SqlOp) (largs rargs : List Expr)
    (hop : op = .eq ∨ op = .ne ∨ op = .nulleq)
    (hlen : rargs.length = largs.length) (hne1 : largs.length ≠ 1)
    (hsl : ∀ e ∈ largs, getRowLen e = 1) (hsr : ∀ e ∈ rargs, getRowLen e = 1) :
    constructBinaryOpFunction (.row largs) (.row rargs) op =
      (if op = .ne then .ok (composeDNF (List.zipWith (Expr.binOp .ne) largs rargs))
       else .ok (composeCNF (List.zipWith (Expr.binOp op) largs rargs))) := by
  have hlist := cbofList_scalar op largs rargs hsl hsr
  unfold constructBinaryOpFunction
  rcases hop with h | h | h <;> subst h <;>
    simp [getRowLen, hlen, hne1, hlist]

theorem cbof_row_order (op : SqlOp)
    (hop : op ≠ .eq ∧ op ≠ .ne ∧ op ≠ .nulleq) :
    ∀ (largs rargs : List Expr), rargs.length = largs.length →
      2 ≤ largs.length →
      (∀ e ∈ largs, getRowLen e = 1) → (∀ e ∈ rargs, getRowLen e = 1) →
      constructBinaryOpFunction (.row largs) (.row rargs) op =
        .ok (specCascade largs rargs op) := by
  intro largs
  induction largs with
  | nil =>
    intro rargs _ h2
    simp at h2
  | cons a as ih =>
    intro rargs hlen h2 hsl hsr
    rcases rargs with _ | ⟨b, bs⟩
    · simp at hlen
    · rcases as with _ | ⟨a2, as2⟩
      · simp at h2
      rcases bs with _ | ⟨b2, bs2⟩
      · simp at hlen
      have hlen' : bs2.length = as2.length := by
        simp at hlen
        omega
      rcases as2 with _ | ⟨a3, as3⟩
      · -- two elements on each side: the cascade bottoms out in a direct
        -- element comparison
        rcases bs2 with _ | _
        · unfold constructBinaryOpFunction
          have hrec := cbof_scalar a2 b2 (hsl a2 (by simp)) (hsr b2 (by simp)) op
          rcases op <;> simp_all [getRowLen, getFuncArg, popRowFirstArg, specCascade]
        · simp at hlen'
      · rcases bs2 with _ | ⟨b3, bs3⟩
        · simp at hlen'
        have hrec := ih (b2 :: b3 :: bs3)
          (by simp at hlen ⊢; omega) (by simp)
          (fun e he => hsl e (by simp at he ⊢; tauto))
          (fun e he => hsr e (by simp at he ⊢; tauto))
        unfold constructBinaryOpFunction
        rcases op <;> simp_all [getRowLen, getFuncArg, popRowFirstArg, specCascade]

/-- C5 (counterexample): for rows combined with `<=>`, the per-element
comparisons built by `constructBinaryOpFunction` use `<=>` itself, not `=`
as the claim states: on `(a0,a1) <=> (b0,b1)` the code produces the AND of
per-element `<=>`, which is not the AND of per-element `=`. -/
theorem c5_nulleq_counterexample :
    constructBinaryOpFunction (.row [.leaf 0, .leaf 1]) (.row [.leaf 2, .leaf 3]) .nulleq =
      .ok (.andE (.binOp .nulleq (.leaf 0) (.leaf 2)) (.binOp .nulleq (.leaf 1) (.leaf 3)))
    ∧ constructBinaryOpFunction (.row [.leaf 0, .leaf 1]) (.row [.leaf 2, .leaf 3]) .nulleq ≠
      .ok (.andE (.binOp .eq (.leaf 0) (.leaf 2)) (.binOp .eq (.leaf 1) (.leaf 3))) := by
  have h := cbof_row_eqlike .nulleq [.leaf 0, .leaf 1] [.leaf 2, .leaf 3]
    (by simp) rfl (by simp) (by simp [getRowLen]) (by simp [getRowLen])
  rw [h]
  constructor
  · rfl
  · intro hc
    simp [composeCNF] at hc

/-- C5 (amended): for equal-width rows of scalar elements with `n > 1`
elements, `constructBinaryOpFunction` produces: for `=` and `<=>` the AND of
the `n` per-element comparisons with the same operator (`=` resp. `<=>`);
for `!=` the OR of the per-element `!=`; for the ordering operators the
nested `IF(a0 != b0, a0 op b0, IF(isnull(a0 != b0), NULL, <recurse>))`
cascade; and rows of unequal width fail with the operand-columns error. -/
theorem c5_construct_binary_op_amended :
    (∀ (op : SqlOp) (largs rargs : List Expr),
      (op = .eq ∨ op = .nulleq) → rargs.length = largs.length →
      1 < largs.length →
      (∀ e ∈ largs, getRowLen e = 1) → (∀ e ∈ rargs, getRowLen e = 1) →
      constructBinaryOpFunction (.row largs) (.row rargs) op =
        .ok (composeCNF (List.zipWith (Expr.binOp op) largs rargs)))
    ∧ (∀ (largs rargs : List Expr), rargs.length = largs.length →
      1 < largs.length →
      (∀ e ∈ largs, getRowLen e = 1) → (∀ e ∈ rargs, getRowLen e = 1) →
      constructBinaryOpFunction (.row largs) (.row rargs) .ne =
        .ok (composeDNF (List.zipWith (Expr.binOp .ne) largs rargs)))
    ∧ (∀ (op : SqlOp) (largs rargs : List Expr),
      (op = .lt ∨ op = .le ∨ op = .gt ∨ op = .ge) →
      rargs.length = largs.length → 1 < largs.length →
      (∀ e ∈ largs, getRowLen e = 1) → (∀ e ∈ rargs, getRowLen e = 1) →
      constructBinaryOpFunction (.row largs) (.row rargs) op =
        .ok (specCascade largs rargs op))
    ∧ (∀ (op : SqlOp) (l r : Expr), getRowLen r ≠ getRowLen l →
      constructBinaryOpFunction l r op = .error (.operandColumns (getRowLen l))) := by
  refine ⟨?_, ?_, ?_, ?_⟩
  · intro op largs rargs hop hlen h1 hsl hsr
    have h := cbof_row_eqlike op largs rargs (by tauto) hlen (by omega) hsl hsr
    rcases hop with h' | h' <;> subst h' <;> simpa using h
  · intro largs rargs hlen h1 hsl hsr
    have h := cbof_row_eqlike .ne largs rargs (by tauto) hlen (by omega) hsl hsr
    simpa using h
  · intro op largs rargs hop hlen h1 hsl hsr
    have hne : op ≠ .eq ∧ op ≠ .ne ∧ op ≠ .nulleq := by
      rcases hop with h' | h' | h' | h' <;> subst h' <;> simp
    exact cbof_row_order op hne largs rargs hlen (by omega) hsl hsr
  · intro op l r hne
    have hne1 : ¬(getRowLen l = 1 ∧ getRowLen r = 1) := by
      intro ⟨ha, hb⟩
      exact hne (hb.trans ha.symm)
    unfold constructBinaryOpFunction
    rw [dif_neg hne1, dif_pos hne]

/-- C5 (witness): the amended theorem applied to the concrete ordering
comparison `(a0, a1) < (b0, b1)`. -/
theorem c5_construct_binary_op_amended_witness :
    constructBinaryOpFunction (.row [.leaf 0, .leaf 1]) (.row [.leaf 2, .leaf 3]) .lt =
      .ok (specCascade [.leaf 0, .leaf 1] [.leaf 2, .leaf 3] .lt) :=
  c5_construct_binary_op_amended.2.2.1 .lt [.leaf 0, .leaf 1] [.leaf 2, .leaf 3]
    (by simp) rfl (by simp) (by simp [getRowLen]) (by simp [getRowLen])

/-! ## `rewriteExprNode` and the stack-depth invariant (claim C6) -/

/-- Modelled from the spec: `expression.CheckArgsNotMultiColumnRow` rejects
a result that is a row of width other than 1 with the operand-columns
error. -/
def checkArgsNotMultiColumnRow (e : Expr) : Option RewriteErr :=
  if getRowLen e ≠ 1 then some (.operandColumns 1) else none

/-- Transliteration of `PlanBuilder.rewriteExprNode` after the traversal:
a pending rewriter error is surfaced; a non-scalar rewrite with an empty
context stack returns no expression and no error; any other stack depth
other than 1 is the `context len %v is invalid` error; the single remaining
expression is checked not to be a multi-column row and returned. -/
def rewriteExprNodeResult (err : Option RewriteErr) (asScalar : Bool)
    (ctxStack : List Expr) : Except RewriteErr (Option Expr) :=
  match err with
  | some e => .error e
  | none =>
    if !asScalar && ctxStack.length == 0 then .ok none
    else if ctxStack.length ≠ 1 then .error (.contextLenInvalid ctxStack.length)
    else
      match checkArgsNotMultiColumnRow (ctxStack.getD 0 .nullLit) with
      | some e => .error e
      | none => .ok (some (ctxStack.getD 0 .nullLit))

/-- C6 (counterexample): a non-scalar rewrite whose traversal leaves an empty
context stack (e.g. `EXISTS` on a correlated subquery rewritten into a
semi-join) completes without any error, yet the stack does not hold exactly
one expression — contradicting the claim that any stack depth other than 1
surfaces a build error. -/
theorem c6_counterexample :
    rewriteExprNodeResult none false [] = .ok none ∧
    ([] : List Expr).length ≠ 1 := by
  constructor
  · rfl
  · simp

/-- C6 (amended): when `rewriteExprNode` completes without error it either
returns the single expression held by the stack (whose row width is 1), or —
only in the non-scalar, empty-stack case — returns no expression at all; and
whenever the final stack depth differs from 1 and the empty-stack non-scalar
escape does not apply, a build error surfaces and no expression is
returned. -/
theorem c6_stack_invariant_amended :
    (∀ (asScalar : Bool) (stack : List Expr) (res : Option Expr),
      rewriteExprNodeResult none asScalar stack = .ok res →
      (∃ e, res = some e ∧ stack = [e] ∧ getRowLen e = 1) ∨
        (res = none ∧ asScalar = false ∧ stack = []))
    ∧ (∀ (asScalar : Bool) (stack : List Expr),
      stack.length ≠ 1 → (asScalar = true ∨ stack ≠ []) →
      ∃ err, rewriteExprNodeResult none asScalar stack = .error err) := by
  constructor
  · intro asScalar stack res hok
    by_cases hesc : !asScalar && stack.length == 0
    · right
      simp only [rewriteExprNodeResult, hesc, if_pos] at hok
      simp only [Bool.and_eq_true, Bool.not_eq_true', beq_iff_eq] at hesc
      exact ⟨by injection hok with h; exact h.symm, hesc.1,
        List.length_eq_zero.mp hesc.2⟩
    · left
      simp only [rewriteExprNodeResult, hesc, if_neg] at hok
      rcases hlen : stack with _ | ⟨e, rest⟩
      · subst hlen
        simp at hok
      · subst hlen
        rcases rest with _ | ⟨e2, rest2⟩
        · by_cases hw : getRowLen e = 1
          · simp [checkArgsNotMultiColumnRow, hw] at hok
            exact ⟨e, by simp [hok], rfl, hw⟩
          · simp [checkArgsNotMultiColumnRow, hw] at hok
        · simp at hok
  · intro asScalar stack hlen hne
    have hesc : (!asScalar && stack.length == 0) = false := by
      rcases hne with h | h
      · simp [h]
      · simp [List.length_eq_zero]
        intro _
        exact fun hc => absurd hc h
    refine ⟨.contextLenInvalid stack.length, ?_⟩
    simp [rewriteExprNodeResult, hesc, hlen]

/-- C6 (witness): the amended invariant applied to a scalar rewrite whose
stack holds exactly one scalar expression. -/
theorem c6_stack_invariant_amended_witness :
    (∃ e, some (Expr.leaf 7) = some e ∧ [Expr.leaf 7] = [e] ∧ getRowLen e = 1) ∨
      (some (Expr.leaf 7) = none ∧ true = false ∧ ([Expr.leaf 7] : List Expr) = []) :=
  c6_stack_invariant_amended.1 true [Expr.leaf 7] (some (Expr.leaf 7)) rfl

/-! ## `inToExpression` (claim C9)

`inToExpression` only inspects the row width and the field type of the
expressions on the context stack, so we model stack entries by those two
attributes. -/

/-- Field type tags relevant to `inToExpression`: `nullTp` is
`mysql.TypeNull`; the boolean result type of the built `in`/`or` function is
`tinyTp`. -/
inductive FTp where
  | nullTp | tinyTp | intTp | realTp | strTp
  deriving DecidableEq, Repr

/-- A context-stack entry, abstracted to its row width (`GetRowLen`) and its
field type tag. -/
structure TExpr where
  width : Nat
  tp : FTp
  deriving DecidableEq, Repr

/-- The `expression.Null` constant pushed by the NULL-typed shortcut. -/
def nullConstT : TExpr := ⟨1, .nullTp⟩

/-- What `inToExpression` did: failed with an error, replaced the whole
expression by the NULL constant, built the native `in` function (possibly
NOT-wrapped), or built the DNF of per-element equalities (possibly
NOT-wrapped). -/
inductive InResult where
  | errorOp (l : Nat)
  | nullReplaced
  | builtIn (notWrapped : Bool)
  | builtDNF (notWrapped : Bool)
  deriving DecidableEq, Repr

/-- Transliteration of `expressionRewriter.inToExpression` (control flow and
stack effect). `lLen` is the number of list elements, `notIn` the NOT flag.
The loop first checks each list element's row width against the left
operand's; then a NULL-typed left operand short-circuits to the NULL
constant; otherwise the native `in` is built when every list element has the
left operand's comparison type (`sameCmpTp` abstracts
`expression.GetAccurateCmpType`, which is outside the excerpt) and the left
operand is scalar, else the DNF of equalities; both are NOT-wrapped when
negated. -/
def inToExpression (lLen : Nat) (notIn : Bool) (stack : List TExpr)
    (sameCmpTp : TExpr → TExpr → Bool) : InResult × List TExpr :=
  let stkLen := stack.length
  let left := stack.getD (stkLen - lLen - 1) nullConstT
  let l := left.width
  if ((List.range lLen).all
      (fun i => (stack.getD (stkLen - lLen + i) nullConstT).width == l)) = false then
    (.errorOp l, stack)
  else if left.tp = .nullTp then
    (.nullReplaced, stack.take (stkLen - lLen - 1) ++ [nullConstT])
  else
    let args := stack.drop (stkLen - lLen - 1)
    let allSameType :=
      (args.drop 1).all (fun arg => arg.tp == .nullTp || sameCmpTp left arg)
    if allSameType && l == 1 then
      (.builtIn notIn, stack.take (stkLen - lLen - 1) ++ [⟨1, .tinyTp⟩])
    else
      (.builtDNF notIn, stack.take (stkLen - lLen - 1) ++ [⟨1, .tinyTp⟩])

/-- C9 (counterexample): a NULL-typed left operand does not make the
rewriter push the NULL constant when a list element is a row of different
width — the operand-columns width check runs first and errors out, so the
replacement is not unconditional in the list elements. -/
theorem c9_null_in_counterexample :
    inToExpression 1 false [⟨1, .nullTp⟩, ⟨2, .intTp⟩] (fun _ _ => true) =
      (.errorOp 1, [⟨1, .nullTp⟩, ⟨2, .intTp⟩]) ∧
    (inToExpression 1 false [⟨1, .nullTp⟩, ⟨2, .intTp⟩] (fun _ _ => true)).1 ≠
      .nullReplaced := by
  constructor
  · rfl
  · decide

/-- C9 (amended): provided every list element has the left operand's row
width (otherwise the operand-columns error fires first), a NULL-typed left
operand makes `inToExpression` replace the whole expression by the NULL
constant immediately — for negated and non-negated `IN` alike, regardless of
the list elements' types and of the comparison-type oracle, with no NOT
wrapping applied. -/
theorem c9_null_in_amended (pre : List TExpr) (left : TExpr)
    (elems : List TExpr) (notIn : Bool) (sameCmpTp : TExpr → TExpr → Bool)
    (htp : left.tp = .nullTp) (hw : ∀ e ∈ elems, e.width = left.width) :
    inToExpression elems.length notIn (pre ++ left :: elems) sameCmpTp =
      (.nullReplaced, pre ++ [nullConstT]) := by
  have hlen : (pre ++ left :: elems).length = pre.length + elems.length + 1 := by
    simp
    omega
  have hidx : (pre ++ left :: elems).length - elems.length - 1 = pre.length := by
    omega
  have hleft : (pre ++ left :: elems).getD pre.length nullConstT = left := by
    have h : (pre ++ left :: elems)[pre.length]? = some left := by
      rw [List.getElem?_append_right (le_refl _)]
      simp
    rw [List.getD_eq_getElem?_getD, h]
    rfl
  have helem : ∀ i < elems.length,
      (pre ++ left :: elems).getD (pre.length + 1 + i) nullConstT =
        elems.getD i nullConstT := by
    intro i hi
    rw [List.getD_eq_getElem?_getD, List.getElem?_append_right (by omega)]
    rw [show pre.length + 1 + i - pre.length = i + 1 by omega]
    simp [List.getD_eq_getElem?_getD]
  have hcheck : ((List.range elems.length).all
      (fun i => ((pre ++ left :: elems).getD
        ((pre ++ left :: elems).length - elems.length + i) nullConstT).width ==
          left.width)) = true := by
    rw [List.all_eq_true]
    intro i hi
    rw [List.mem_range] at hi
    have : (pre ++ left :: elems).length - elems.length + i = pre.length + 1 + i := by
      omega
    rw [this, helem i hi, beq_iff_eq]
    rcases h : elems.getD i nullConstT with ⟨w, tp⟩
    have hmem : elems.getD i nullConstT ∈ elems := by
      rw [List.getD_eq_getElem?_getD, List.getElem?_eq_getElem hi]
      simp [List.getElem_mem]
    rw [← h]
    exact hw _ hmem
  have htake : (pre ++ left :: elems).take pre.length = pre := by
    rw [List.take_append_of_le_length (by simp)]
    simp
  simp only [inToExpression, hidx, hleft, hcheck, htp, htake]
  simp

/-- C9 (witness): the amended claim at a concrete negated `IN` with a
NULL-typed left operand and two integer list elements. -/
theorem c9_null_in_amended_witness :
    inToExpression 2 true [⟨1, .intTp⟩, ⟨1, .nullTp⟩, ⟨1, .intTp⟩, ⟨1, .strTp⟩]
        (fun _ _ => false) =
      (.nullReplaced, [⟨1, .intTp⟩, nullConstT]) :=
  c9_null_in_amended [⟨1, .intTp⟩] ⟨1, .nullTp⟩ [⟨1, .intTp⟩, ⟨1, .strTp⟩] true
    (fun _ _ => false) rfl (by decide)

/-! ## `rewriteFuncCall` for `IFNULL` (claim C10) -/

/-- Expressions as `rewriteFuncCall` distinguishes them: a column carries the
NOT NULL flag of its type and the referenced marker; anything else is
abstract. `ifnullFunc` is the scalar function the generic path would build. -/
inductive RExpr where
  | col (notNullFlag : Bool) (isReferenced : Bool) (id : Nat)
  | plain (id : Nat)
  | ifnullFunc (a b : RExpr)
  deriving DecidableEq, Repr

/-- The outcome of `rewriteFuncCall` on an `ifnull` call: an arity error, a
handled rewrite (it returned `true` and replaced the stack, skipping the
generic function build), or a fall-through to the generic
`funcCallToExpression` path (it returned `false`). -/
inductive IfnullOutcome where
  | error (e : RewriteErr)
  | handled (newStack : List RExpr)
  | fallthrough
  deriving DecidableEq, Repr

/-- Transliteration of the `ast.Ifnull` branch of
`expressionRewriter.rewriteFuncCall`: with other than two arguments the
incorrect-parameter-count error is raised; when the first argument is a
column whose type has the NOT NULL flag, both arguments are popped and a
clone of the column marked `IsReferenced` is pushed (no `ifnull` node is
built); otherwise the original behaviour proceeds. -/
def rewriteFuncCallIfnull (argCount : Nat) (stack : List RExpr) : IfnullOutcome :=
  if argCount ≠ 2 then .error .incorrectParameterCount
  else
    let stackLen := stack.length
    let arg1 := stack.getD (stackLen - 2) (.plain 0)
    match arg1 with
    | .col notNullFlag _ id =>
      if notNullFlag then
        .handled (stack.take (stackLen - 2) ++ [.col notNullFlag true id])
      else .fallthrough
    | _ => .fallthrough

/-- C10: a two-argument `IFNULL(x, y)` whose first argument is a column with
the NOT NULL flag is replaced by the column itself marked referenced: the
two arguments are popped, the marked column is pushed, `y` is discarded and
no `ifnull` function node is built. -/
theorem c10_ifnull_not_null_column (pre : List RExpr) (ref : Bool) (id : Nat)
    (y : RExpr) :
    rewriteFuncCallIfnull 2 (pre ++ [.col true ref id, y]) =
      .handled (pre ++ [.col true true id]) := by
  have hlen : (pre ++ [RExpr.col true ref id, y]).length = pre.length + 2 := by
    simp
  have harg : (pre ++ [RExpr.col true ref id, y]).getD (pre.length + 2 - 2)
      (.plain 0) = .col true ref id := by
    have h : (pre ++ [RExpr.col true ref id, y])[pre.length]? =
        some (RExpr.col true ref id) := by
      rw [List.getElem?_append_right (le_refl _)]
      simp
    rw [show pre.length + 2 - 2 = pre.length by omega]
    rw [List.getD_eq_getElem?_getD, h]
    rfl
  have htake : (pre ++ [RExpr.col true ref id, y]).take (pre.length + 2 - 2) = pre := by
    rw [show pre.length + 2 - 2 = pre.length by omega]
    rw [List.take_append_of_le_length (by simp)]
    simp
  simp only [rewriteFuncCallIfnull, hlen, harg, htake]
  simp

/-- C10 (witness): the `IFNULL` rewrite at a concrete stack. -/
theorem c10_ifnull_not_null_column_witness :
    rewriteFuncCallIfnull 2 [.plain 5, .col true false 1, .plain 9] =
      .handled [.plain 5, .col true true 1] :=
  c10_ifnull_not_null_column [.plain 5] false 1 (.plain 9)

/-! ## Table key codec (claim C7)

The `tablecodec` implementation is not part of the excerpt (only its tests
are), so the codec is modelled from the spec: keys are byte strings
`'t' || tableID(8 bytes, sign-flipped big-endian) || '_r' || handle(8 bytes,
sign-flipped big-endian)`. Bytes are `Nat` values below 256. -/

/-- Modelled from the spec: `codec.EncodeInt` appends the big-endian 8-byte
representation of the signed 64-bit integer with the sign bit flipped, so
that byte-lexicographic order matches signed order. -/
def encodeInt64 (v : Int) : List Nat :=
  let u : Nat := ((v + 2 ^ 63) % 2 ^ 64).toNat
  [u / 256 ^ 7 % 256, u / 256 ^ 6 % 256, u / 256 ^ 5 % 256, u / 256 ^ 4 % 256,
   u / 256 ^ 3 % 256, u / 256 ^ 2 % 256, u / 256 % 256, u % 256]

/-- Modelled from the spec: `codec.DecodeInt` reads 8 big-endian bytes and
un-flips the sign bit. -/
def decodeInt64 (bs : List Nat) : Int :=
  (bs.foldl (fun acc b => acc * 256 + b) 0 : Int) - 2 ^ 63

/-- The `'t'` table prefix byte. -/
def tablePrefixByte : Nat := 0x74

/-- The `'_r'` record marker bytes. -/
def recordPrefixSep : List Nat := [0x5f, 0x72]

/-- Modelled from the spec: `tablecodec.EncodeRowKeyWithHandle` produces
`'t' || encodeInt(tableID) || '_r' || encodeInt(handle)`. -/
def encodeRowKeyWithHandle (tableID handle : Int) : List Nat :=
  tablePrefixByte :: (encodeInt64 tableID ++ (recordPrefixSep ++ encodeInt64 handle))

/-- Modelled from the spec: `tablecodec.DecodeRecordKey` checks the `'t'`
prefix, decodes the table id, checks the `'_r'` record marker and decodes
the 8-byte handle; any malformed or mis-sized key is the `InvalidKey`
error. -/
def decodeRecordKey (key : List Nat) : Except String (Int × Int) :=
  match key with
  | t :: rest =>
    if t ≠ tablePrefixByte then .error "invalid key"
    else if rest.length < 8 then .error "invalid key"
    else
      let tableID := decodeInt64 (rest.take 8)
      match rest.drop 8 with
      | m1 :: m2 :: handleBytes =>
        if m1 = 0x5f ∧ m2 = 0x72 ∧ handleBytes.length = 8 then
          .ok (tableID, decodeInt64 handleBytes)
        else .error "invalid key"
      | _ => .error "invalid key"
  | [] => .error "invalid key"

theorem nat_digits8 (u : Nat) (hu : u < 2 ^ 64) :
    ((((((((0 : Nat) * 256 + u / 256 ^ 7 % 256) * 256 + u / 256 ^ 6 % 256) * 256
      + u / 256 ^ 5 % 256) * 256 + u / 256 ^ 4 % 256) * 256 + u / 256 ^ 3 % 256) * 256
      + u / 256 ^ 2 % 256) * 256 + u / 256 % 256) * 256 + u % 256 = u := by
  norm_num
  omega

theorem decodeInt64_encodeInt64 (v : Int) (hlo : -(2 ^ 63) ≤ v)
    (hhi : v < 2 ^ 63) : decodeInt64 (encodeInt64 v) = v := by
  have hnn : (0 : Int) ≤ v + 2 ^ 63 := by omega
  have hlt : v + 2 ^ 63 < 2 ^ 64 := by omega
  have hmod : (v + 2 ^ 63) % 2 ^ 64 = v + 2 ^ 63 := Int.emod_eq_of_lt hnn hlt
  simp only [encodeInt64, decodeInt64, List.foldl, hmod]
  have hub : (v + 2 ^ 63).toNat < 2 ^ 64 := by omega
  have key := nat_digits8 ((v + 2 ^ 63).toNat) hub
  have keyZ : (((((((((0 : Nat) * 256 + (v + 2 ^ 63).toNat / 256 ^ 7 % 256) * 256
      + (v + 2 ^ 63).toNat / 256 ^ 6 % 256) * 256
      + (v + 2 ^ 63).toNat / 256 ^ 5 % 256) * 256
      + (v + 2 ^ 63).toNat / 256 ^ 4 % 256) * 256
      + (v + 2 ^ 63).toNat / 256 ^ 3 % 256) * 256
      + (v + 2 ^ 63).toNat / 256 ^ 2 % 256) * 256
      + (v + 2 ^ 63).toNat / 256 % 256) * 256
      + (v + 2 ^ 63).toNat % 256 : Int) = ((v + 2 ^ 63).toNat : Int) := by
    exact_mod_cast congrArg (Nat.cast : Nat → Int) key
  push_cast at keyZ
  push_cast
  rw [keyZ]
  omega

/-- C7: for every in-range signed 64-bit `(tableID, handle)` pair — including
0, negative values and the `MaxUint32` / `MaxInt64` boundaries —
`DecodeRecordKey (EncodeRowKeyWithHandle tableID handle)` returns exactly
`(tableID, handle)` with no error. -/
theorem c7_record_key_roundtrip (tableID handle : Int)
    (ht1 : -(2 ^ 63) ≤ tableID) (ht2 : tableID < 2 ^ 63)
    (hh1 : -(2 ^ 63) ≤ handle) (hh2 : handle < 2 ^ 63) :
    decodeRecordKey (encodeRowKeyWithHandle tableID handle) =
      .ok (tableID, handle) := by
  have hlen8 : (encodeInt64 tableID).length = 8 := rfl
  have htake : (encodeInt64 tableID ++ (recordPrefixSep ++ encodeInt64 handle)).take 8
      = encodeInt64 tableID := by
    rw [← hlen8, List.take_left]
  have hdrop : (encodeInt64 tableID ++ (recordPrefixSep ++ encodeInt64 handle)).drop 8
      = recordPrefixSep ++ encodeInt64 handle := by
    rw [← hlen8, List.drop_left]
  have hlen : (encodeInt64 tableID ++ (recordPrefixSep ++ encodeInt64 handle)).length
      = 18 := by
    simp [encodeInt64, recordPrefixSep]
  simp only [encodeRowKeyWithHandle, decodeRecordKey, htake, hdrop, hlen]
  rw [if_neg (by simp [tablePrefixByte])]
  rw [if_neg (by omega)]
  simp only [recordPrefixSep, List.cons_append, List.nil_append]
  rw [if_pos (by simp [encodeInt64])]
  rw [decodeInt64_encodeInt64 tableID ht1 ht2,
    decodeInt64_encodeInt64 handle hh1 hh2]

/-- C7 (witness): the round trip at the boundary pair
`(MaxUint32, MaxInt64)` and at a negative pair. -/
theorem c7_record_key_roundtrip_witness :
    decodeRecordKey (encodeRowKeyWithHandle 4294967295 9223372036854775807) =
      .ok (4294967295, 9223372036854775807) :=
  c7_record_key_roundtrip 4294967295 9223372036854775807
    (by norm_num) (by norm_num) (by norm_num) (by norm_num)

/-! ## Row codec (claim C8)

The row codec is likewise modelled from the spec: a row is serialized as a
flat sequence of (colID, encoded-value) pairs, and an empty row must still
produce a non-empty, decodable byte string — the single-byte empty marker. -/

/-- `codec.NilFlag`, the byte used as the empty-row marker (modelled from
the spec). -/
def nilFlag : Nat := 0

/-- Modelled from the spec: `EncodeRow` serializes each `(colID, value)`
pair — the column id as an 8-byte encoded int, the value in a
self-describing length-prefixed encoding — and produces exactly the
single `NilFlag` byte for a row of zero columns (never a zero-length
buffer); mismatched value/colID counts are an error. -/
def encodeRow (row : List (List Nat)) (colIDs : List Int) :
    Except String (List Nat) :=
  if row.length ≠ colIDs.length then
    .error "EncodeRow error: data and columnID count not match"
  else if row.length = 0 then .ok [nilFlag]
  else .ok ((colIDs.zip row).foldl
    (fun acc p => acc ++ encodeInt64 p.1 ++ (p.2.length :: p.2)) [])

/-- The pair-decoding loop of `DecodeRow` (modelled from the spec): cut one
column id and one self-describing value off the bytes, keep the pair when
the column id is requested, and continue until the buffer is exhausted;
truncated buffers are a decode error, never a crash. -/
def decodePairs (bytes : List Nat) (requested : List Int) :
    Except String (List (Int × List Nat)) :=
  match bytes with
  | [] => .ok []
  | b0 :: brest =>
    if (b0 :: brest).length < 9 then .error "insufficient bytes to decode value"
    else
      let cid := decodeInt64 ((b0 :: brest).take 8)
      let rest := (b0 :: brest).drop 8
      let len := rest.headD 0
      let body := rest.drop 1
      if body.length < len then .error "insufficient bytes to decode value"
      else
        let payload := body.take len
        let rem := body.drop len
        match decodePairs rem requested with
        | .error e => .error e
        | .ok acc => .ok (if cid ∈ requested then (cid, payload) :: acc else acc)
termination_by bytes.length
decreasing_by
  simp_wf
  omega

/-- Modelled from the spec: `DecodeRow` tolerates nil input, returns the
empty mapping for the single-byte empty marker, and otherwise decodes the
pair sequence, keeping only the requested column ids. -/
def decodeRow (bytes : List Nat) (requested : List Int) :
    Except String (List (Int × List Nat)) :=
  if bytes = [] then .ok []
  else if bytes = [nilFlag] then .ok []
  else decodePairs bytes requested

/-- C8: encoding an empty row (zero columns, zero column ids) produces a
byte string of exactly one byte — never a zero-length buffer — and decoding
that byte string against any requested column set succeeds with an empty
result mapping. -/
theorem c8_empty_row_marker :
    encodeRow [] [] = .ok [nilFlag] ∧
    ([nilFlag] : List Nat).length = 1 ∧
    ∀ requested : List Int, decodeRow [nilFlag] requested = .ok [] := by
  refine ⟨rfl, rfl, ?_⟩
  intro requested
  rfl

end Spec2Proof
